import Mathlib

/-!
# Verification of the stagehand accessibility-tree extraction core

Shallow embedding of the accessibility-tree extraction and cross-frame
reconciliation engine (a11y utils, second generation unless noted) together
with the frame-ordinal registry from `types/context.ts`.  Browser-protocol
round trips (CDP sessions, page-side script evaluation) are modelled as
explicit inputs/oracles; everything the TypeScript code computes itself is
translated function-for-function.
-/

namespace Stagehand

/-! ## JavaScript string primitives

`String.prototype.trim` and the regex class `\s` use the JS whitespace set
(WhiteSpace ∪ LineTerminator).  Strings are modelled as lists of Unicode
scalar values; all characters the code treats specially live in the BMP, so
UTF-16 code-unit iteration and code-point iteration agree on them. -/

/-- The JavaScript whitespace set used by `trim()` and `\s`. -/
def isJsWs (c : Char) : Bool :=
  let n := c.toNat
  (0x9 ≤ n && n ≤ 0xD) || n == 0x20 || n == 0xA0 || n == 0x1680 ||
  (0x2000 ≤ n && n ≤ 0x200A) || n == 0x2028 || n == 0x2029 ||
  n == 0x202F || n == 0x205F || n == 0x3000 || n == 0xFEFF

/-- `trim()` on a character list: drop JS whitespace from both ends. -/
def jsTrimList (l : List Char) : List Char :=
  ((l.dropWhile isJsWs).reverse.dropWhile isJsWs).reverse

/-- JavaScript `String.prototype.trim`. -/
def jsTrim (s : String) : String :=
  String.mk (jsTrimList s.data)

/-- JavaScript `String.prototype.toLowerCase` on the ASCII range (DOM node
names and tag names are ASCII). -/
def jsToLower (s : String) : String :=
  String.mk (s.data.map Char.toLower)

/-! ## Text Normalizer, both generations (`cleanText`)

First generation (a11y utils v1, `CLEAN_RULES` + `cleanText`): two global
regex replacements — strip the private-use-area range `\u{E000}-\u{F8FF}`,
then replace each of `      ﻿` by a regular space —
followed by `trim()`.

Second generation (a11y utils v2, `cleanText`): a single character loop that
skips PUA glyphs, converts NBSP-family characters to one space while
collapsing runs of spaces created by the conversion, then trims. -/

/-- Membership in the private-use-area range `\u{E000}-\u{F8FF}`
(`PUA_START`/`PUA_END`). -/
def isPUA (c : Char) : Bool :=
  0xE000 ≤ c.toNat && c.toNat ≤ 0xF8FF

/-- Membership in the NBSP family `NBSP_CHARS = {U+00A0, U+202F, U+2007, U+FEFF}`. -/
def isNbspChar (c : Char) : Bool :=
  c.toNat == 0xA0 || c.toNat == 0x202F || c.toNat == 0x2007 || c.toNat == 0xFEFF

/-- First-generation `cleanText`: apply the two `CLEAN_RULES` in order
(PUA strip, NBSP→space), then `trim()`. -/
def cleanTextV1 (input : String) : String :=
  jsTrim (String.mk
    ((input.data.filter (fun c => !(isPUA c))).map
      (fun c => if isNbspChar c then ' ' else c)))

/-- The character loop of the second-generation `cleanText`, with the
`prevWasSpace` flag threaded explicitly.  Mirrors the `for` loop over
`input` in the source: PUA glyphs are skipped, an NBSP-family character
emits a space only when the previous emitted character was not a space,
any other character is copied and updates the flag to `c == ' '`. -/
def cleanLoop : List Char → Bool → List Char
  | [], _ => []
  | c :: cs, prevWasSpace =>
    if isPUA c then cleanLoop cs prevWasSpace
    else if isNbspChar c then
      if prevWasSpace then cleanLoop cs true
      else ' ' :: cleanLoop cs true
    else c :: cleanLoop cs (c == ' ')

/-- Second-generation `cleanText`: run the character loop starting with
`prevWasSpace = false`, then `trim()`. -/
def cleanTextV2 (input : String) : String :=
  jsTrim (String.mk (cleanLoop input.data false))

/-- `noCollapse l prev` holds when running the v2 loop over `l` (already
stripped of PUA glyphs) starting from flag `prev` never hits the collapsing
branch, i.e. no NBSP-family character is read while the previous emitted
character was a space. -/
def noCollapse : List Char → Bool → Bool
  | [], _ => true
  | c :: cs, prev =>
    (!(isNbspChar c) || !prev) && noCollapse cs (c == ' ' || isNbspChar c)

/-! ## Frame Ordinal Registry (`types/context.ts`, `getFrameOrdinal`)

Playwright `Frame` handles are opaque to the registry; we model a handle as
`Option Nat` (`none` plays the role of `undefined`, the main-frame sentinel
accepted by the TypeScript signature `Frame | undefined`).  The two
module-level `Map`s (`frameToOrdinal`, `ordinalToFrame`) become an explicit
state record threaded through calls; `Map.get`/`Map.set` become
association-list lookup/append (keys are inserted at most once, so first
match equals JS `Map` semantics, and `Map.size` is the list length). -/

/-- JS `Map.get`: first binding for the key, if any. -/
def mapGet {α β : Type} [DecidableEq α] : List (α × β) → α → Option β
  | [], _ => none
  | (k, v) :: rest, a => if k = a then some v else mapGet rest a

/-- The registry state: the module-level maps `frameToOrdinal` and
`ordinalToFrame` of `types/context.ts`. -/
structure OrdState where
  frameToOrdinal : List (Option Nat × Nat)
  ordinalToFrame : List (Nat × Option Nat)
deriving Repr, DecidableEq

/-- Fresh registry (page start). -/
def OrdState.empty : OrdState := ⟨[], []⟩

/-- `getFrameOrdinal` from `types/context.ts`: return the cached ordinal if
the frame is registered; otherwise assign `frameToOrdinal.size`, throwing
when that next ordinal exceeds 99; also record the reverse mapping.  The
returned state is the registry after the call (unchanged on a throw). -/
def getFrameOrdinal (s : OrdState) (f : Option Nat) : Except String Nat × OrdState :=
  match mapGet s.frameToOrdinal f with
  | some o => (Except.ok o, s)
  | none =>
    let ord := s.frameToOrdinal.length
    if ord > 99 then
      (Except.error "More than 100 frames – enlarge format", s)
    else
      (Except.ok ord,
       { frameToOrdinal := s.frameToOrdinal ++ [(f, ord)],
         ordinalToFrame := s.ordinalToFrame ++ [(ord, f)] })

/-- Registry state reached after a sequence of registration calls within one
page lifetime (results discarded, states threaded). -/
def runOrdinals (fs : List (Option Nat)) : OrdState :=
  fs.foldl (fun s f => (getFrameOrdinal s f).2) OrdState.empty

/-- Registry invariant: the assigned ordinals are exactly `0..size-1` in
insertion order (hence pairwise distinct). -/
def OrdState.WF (s : OrdState) : Prop :=
  s.frameToOrdinal.map Prod.snd = List.range s.frameToOrdinal.length

/-! ## Hierarchical Tree Builder: cleaning passes (a11y utils v2)

`AccessibilityNode` (with the v2 `RichNode` extension carrying an optional
`encodedId`) becomes an inductive tree: the parent owns its children.  The
CDP `nodeId` string is kept as its parsed integer value (the code only ever
uses `+node.nodeId`, which can be negative for pseudo-nodes).  JS string
truthiness (`undefined`/empty string are falsy) is modelled explicitly. -/

/-- `EncodedId`: the template-string type `frameOrdinal-backendId`. -/
abbrev EncodedId := Nat × Nat

/-- JS truthiness of an optional string field. -/
def jsTruthy : Option String → Bool
  | none => false
  | some s => !(s == "")

/-- An accessibility node after hierarchy building (v2 `RichNode`): parsed
`nodeId`, role, optional accessible name, optional `encodedId`, children. -/
inductive AXTree where
  | node (nodeId : Int) (role : String) (name : Option String)
      (encodedId : Option EncodedId) (children : List AXTree)

/-- Role of the root node. -/
def AXTree.role : AXTree → String
  | .node _ r _ _ _ => r

/-- Accessible name of the root node. -/
def AXTree.name : AXTree → Option String
  | .node _ _ n _ _ => n

/-- Children of the root node. -/
def AXTree.children : AXTree → List AXTree
  | .node _ _ _ _ cs => cs

/-- `normaliseSpaces` from the source: copy the string while collapsing each
run of space/tab/LF/CR (char codes 32, 9, 10, 13) into a single space,
tracked by the `inWs` flag. -/
def normaliseLoop : List Char → Bool → List Char
  | [], _ => []
  | c :: cs, inWs =>
    let isWs := c.toNat == 32 || c.toNat == 9 || c.toNat == 10 || c.toNat == 13
    if isWs then
      if inWs then normaliseLoop cs true
      else ' ' :: normaliseLoop cs true
    else c :: normaliseLoop cs false

/-- `normaliseSpaces(s)`: whitespace-run collapsing. -/
def normaliseSpaces (s : String) : String :=
  String.mk (normaliseLoop s.data false)

/-- The `joined` accumulator of `removeRedundantStaticTextChildren`: for each
direct child with role `StaticText` and a truthy name, append
`normaliseSpaces(name).trim()`. -/
def joinedStaticText : List AXTree → String
  | [] => ""
  | c :: cs =>
    (if c.role = "StaticText" ∧ jsTruthy c.name then
      jsTrim (normaliseSpaces (c.name.getD ""))
    else "") ++ joinedStaticText cs

/-- `removeRedundantStaticTextChildren(parent, children)`: if the parent has
a truthy name and the joined normalized text of its StaticText children
equals the parent's normalized name, drop every StaticText child; otherwise
return the children untouched. -/
def removeRedundantStaticTextChildren (parent : AXTree)
    (children : List AXTree) : List AXTree :=
  if !(jsTruthy parent.name) then children
  else
    let parentNorm := jsTrim (normaliseSpaces (parent.name.getD ""))
    if joinedStaticText children = parentNorm then
      children.filter (fun c => !(c.role == "StaticText"))
    else children

/-- Steps 4–6 of `cleanStructuralNodes` (the path taken when the node is not
collapsed or dropped by step 3): replace a surviving `generic`/`none` role by
the DOM tag name found via the node's `encodedId` (JS-truthy lookup), prune
redundant StaticText children, drop the node if it is still a
`generic`/`none` wrapper with no children left, else rebuild it with the
pruned children. -/
def cleanStructuralNodesFinish (nodeId : Int) (role : String)
    (name : Option String) (enc : Option EncodedId) (cleaned : List AXTree)
    (tagNameMap : EncodedId → Option String) : Option AXTree :=
  let role2 :=
    if role = "generic" ∨ role = "none" then
      match enc with
      | some e =>
        match tagNameMap e with
        | some tn => if tn = "" then role else tn
        | none => role
      | none => role
    else role
  let pruned := removeRedundantStaticTextChildren
    (AXTree.node nodeId role2 name enc cleaned) cleaned
  if pruned.isEmpty ∧ (role2 = "generic" ∨ role2 = "none") then none
  else some (AXTree.node nodeId role2 name enc pruned)

mutual

/-- `cleanStructuralNodes` (v2): drop negative pseudo-nodes; drop childless
`generic`/`none` leaves; recursively clean the children, then collapse a
`generic`/`none` node onto its single surviving child, drop it when no child
survives, and otherwise continue with steps 4–6. -/
def cleanStructuralNodes (tagNameMap : EncodedId → Option String) :
    AXTree → Option AXTree
  | AXTree.node nodeId role name enc children =>
    if nodeId < 0 then none
    else if children.isEmpty then
      if role = "generic" ∨ role = "none" then none
      else some (AXTree.node nodeId role name enc children)
    else
      let cleaned := cleanChildren tagNameMap children
      if role = "generic" ∨ role = "none" then
        match cleaned with
        | [c] => some c
        | [] => none
        | _ => cleanStructuralNodesFinish nodeId role name enc cleaned tagNameMap
      else cleanStructuralNodesFinish nodeId role name enc cleaned tagNameMap

/-- `children.map(cleanStructuralNodes).filter(Boolean)`. -/
def cleanChildren (tagNameMap : EncodedId → Option String) :
    List AXTree → List AXTree
  | [] => []
  | c :: cs =>
    match cleanStructuralNodes tagNameMap c with
    | some r => r :: cleanChildren tagNameMap cs
    | none => cleanChildren tagNameMap cs

end

/-! ## Scrollable-role decoration (`decorateRoles`)

The raw CDP `AXNode` shape (`role?.value`, optional backend id, …) and the
flat `AccessibilityNode` shape produced by `decorateRoles` are translated
record-for-record.  The `Set<number>` of scrollable backend ids is a list of
integers; `scrollables.has(n.backendDOMNodeId!)` is false when the backend
id is absent (`Set.has(undefined)`). -/

/-- A raw CDP accessibility node as consumed by `decorateRoles`. -/
structure AXNodeRaw where
  role : Option String
  name : Option String
  description : Option String
  value : Option String
  nodeId : Int
  backendDOMNodeId : Option Int
  parentId : Option Int
  childIds : List Int
  properties : List (String × Option String)
deriving Repr, DecidableEq

/-- A flat `AccessibilityNode` as produced by `decorateRoles`. -/
structure AXFlat where
  role : String
  name : Option String
  description : Option String
  value : Option String
  nodeId : Int
  backendDOMNodeId : Option Int
  parentId : Option Int
  childIds : List Int
  properties : List (String × Option String)
deriving Repr, DecidableEq

/-- `scrollables.has(n.backendDOMNodeId!)`. -/
def axInScrollables (n : AXNodeRaw) (scrollables : List Int) : Bool :=
  match n.backendDOMNodeId with
  | some b => scrollables.contains b
  | none => false

/-- The per-node mapping inside `decorateRoles`: flatten the wrapped CDP
values and, for scrollable nodes, rewrite the role — prefix a truthy
non-`generic`/`none` role with `"scrollable, "`, else set it to exactly
`"scrollable"`. -/
def decorateRole1 (scrollables : List Int) (n : AXNodeRaw) : AXFlat :=
  let role0 := n.role.getD ""
  let role :=
    if axInScrollables n scrollables then
      if role0 ≠ "" ∧ role0 ≠ "generic" ∧ role0 ≠ "none" then
        "scrollable, " ++ role0
      else "scrollable"
    else role0
  { role := role, name := n.name, description := n.description,
    value := n.value, nodeId := n.nodeId,
    backendDOMNodeId := n.backendDOMNodeId, parentId := n.parentId,
    childIds := n.childIds, properties := n.properties }

/-- `decorateRoles(nodes, scrollables)`: map the per-node decoration over
the raw node list. -/
def decorateRoles (nodes : List AXNodeRaw) (scrollables : List Int) :
    List AXFlat :=
  nodes.map (decorateRole1 scrollables)

/-! ## Action dispatch (`performPlaywrightMethod`)

The dispatcher's branch structure is embedded as a pure decision function:
which of the mutually exclusive code paths the method string takes.  The
element-locator capability is abstracted as the set of method names it
exposes as functions (`typeof locator[method] === "function"`).  Only the
final `else` branch throws `PlaywrightCommandMethodNotSupportedException`,
with message `Method ${method} not supported`, and it performs no element
action. -/

/-- The five mutually exclusive code paths of `performPlaywrightMethod`. -/
inductive DispatchPlan where
  | scrollIntoView
  | fillOrType
  | press
  | dynamicCall (method : String)
  | unsupported (message : String)
deriving Repr, DecidableEq

/-- The `if`/`else if` chain of `performPlaywrightMethod`. -/
def methodDispatch (method : String) (locatorHasFn : String → Bool) :
    DispatchPlan :=
  if method = "scrollIntoView" then .scrollIntoView
  else if method = "fill" ∨ method = "type" then .fillOrType
  else if method = "press" then .press
  else if locatorHasFn method then .dynamicCall method
  else .unsupported ("Method " ++ method ++ " not supported")

/-! ## DOM Backend-Id Mapper (`buildBackendIdMaps`, v2)

The CDP `DOM.getDocument` response is an input: a `DOMNode` tree (the walk
reads `backendNodeId`, `nodeName`, `nodeType`, `frameId`, `children`,
`contentDocument`; `shadowRoots` is never read by the walk).  The
module-level `fidToOrdinal` map behind `ordinalForFrameId` is threaded as
explicit state.  The stack-based DFS of the source (own entry, then child
subtrees left-to-right, then the `contentDocument` subtree, with the
`seen`-set and falsy-backend-id guards skipping whole subtrees) is written
as the equivalent recursion in the same processing order. -/

/-- JS falsiness of `node.backendNodeId` (`undefined` or `0`). -/
def jsFalsyId : Option Int → Bool
  | none => true
  | some b => b == 0

/-- A CDP DOM node as fetched by `DOM.getDocument {depth: -1, pierce: true}`. -/
inductive DOMNode where
  | mk (backendNodeId : Option Int) (nodeName : Option String)
      (nodeType : Int) (frameId : Option String)
      (children : List DOMNode) (contentDocument : Option DOMNode)

/-- `backendNodeId` field. -/
def DOMNode.backendNodeId : DOMNode → Option Int
  | .mk b _ _ _ _ _ => b

/-- `nodeName` field, as the JS string `String(node.nodeName)`
(`"undefined"` when absent). -/
def DOMNode.nodeNameStr : DOMNode → String
  | .mk _ n _ _ _ _ => n.getD "undefined"

/-- `nodeType` field. -/
def DOMNode.nodeType : DOMNode → Int
  | .mk _ _ t _ _ _ => t

/-- `frameId` field. -/
def DOMNode.frameId : DOMNode → Option String
  | .mk _ _ _ f _ _ => f

/-- `children` field (`[]` when absent). -/
def DOMNode.children : DOMNode → List DOMNode
  | .mk _ _ _ _ cs _ => cs

/-- `contentDocument` field. -/
def DOMNode.contentDocument : DOMNode → Option DOMNode
  | .mk _ _ _ _ _ d => d

/-- JS object property write `obj[key] = v` (replace or append). -/
def mapSet {α β : Type} [DecidableEq α] : List (α × β) → α → β → List (α × β)
  | [], a, b => [(a, b)]
  | (k, v) :: rest, a, b =>
    if k = a then (a, b) :: rest else (k, v) :: mapSet rest a b

/-- The module-level `fidToOrdinal` map of the v2 a11y utils. -/
structure FidOrdState where
  fidToOrdinal : List (String × Nat)
deriving Repr, DecidableEq

/-- `ordinalForFrameId` (v2 a11y utils): `0` for the main frame
(`fid === undefined`), else the cached ordinal, else
`fidToOrdinal.size + 1`, throwing when that exceeds 99. -/
def ordinalForFrameId (st : FidOrdState) (fid : Option String) :
    Except String (Nat × FidOrdState) :=
  match fid with
  | none => Except.ok (0, st)
  | some f =>
    match mapGet st.fidToOrdinal f with
    | some o => Except.ok (o, st)
    | none =>
      let next := st.fidToOrdinal.length + 1
      if next > 99 then
        Except.error "More than 99 frames – enlarge encoding"
      else
        Except.ok (next, { fidToOrdinal := st.fidToOrdinal ++ [(f, next)] })

/-- A key of the produced maps: the `EncodedId` template string
`ordinal-backendId` with the backend component kept as the signed integer
the walk read from the protocol. -/
abbrev BackendKey := Nat × Int

/-- State of the DFS walk inside `buildBackendIdMaps`: the shared frame
ordinal registry plus `tagNameMap`, `xpathMap` and the `seen` set. -/
structure WalkState where
  fidState : FidOrdState
  tagNameMap : List (BackendKey × String)
  xpathMap : List (BackendKey × String)
  seen : List BackendKey
deriving Repr, DecidableEq

/-- One XPath segment for a child: `text()[i]` / `comment()[i]` /
`tag[i]` depending on `nodeType`. -/
def segFor (nodeType : Int) (tag : String) (idx : Nat) : String :=
  if nodeType = 3 then "text()[" ++ Nat.repr idx ++ "]"
  else if nodeType = 8 then "comment()[" ++ Nat.repr idx ++ "]"
  else tag ++ "[" ++ Nat.repr idx ++ "]"

mutual

/-- The DFS of `buildBackendIdMaps` step 3 on one node: skip the whole
subtree when the backend id is falsy or the encoded id was already seen;
otherwise record the tag-name and xpath entries, then walk the children
left-to-right and finally the `contentDocument` of an `<iframe>` (with
`contentDocument.frameId ?? fid` as its frame id, and an empty path so the
inner document is self-contained).  The source's explicit-stack loop always
terminates on the finite fetched tree; here the recursion carries an
explicit depth budget, chosen by the entry point to dominate the length of
any call chain, so the budget-exhausted error is unreachable from it. -/
def bbimWalk : Nat → DOMNode → String → Option String → WalkState →
    Except String WalkState
  | 0, _, _, _, _ => Except.error "DOM walk recursion budget exhausted"
  | fuel + 1, DOMNode.mk bid nodeName _ _ children contentDoc, path, fid, st =>
    if jsFalsyId bid then Except.ok st
    else
      match ordinalForFrameId st.fidState fid with
      | Except.error e => Except.error e
      | Except.ok (o, fidSt) =>
        let enc : BackendKey := (o, bid.getD 0)
        if st.seen.contains enc then Except.ok { st with fidState := fidSt }
        else
          let st1 : WalkState :=
            { fidState := fidSt,
              tagNameMap :=
                mapSet st.tagNameMap enc (jsToLower (nodeName.getD "undefined")),
              xpathMap := mapSet st.xpathMap enc path,
              seen := st.seen ++ [enc] }
          match bbimWalkChildren fuel children [] path fid st1 with
          | Except.error e => Except.error e
          | Except.ok st2 =>
            if jsToLower (nodeName.getD "undefined") = "iframe" then
              match contentDoc with
              | some doc =>
                bbimWalk fuel doc ""
                  (match doc.frameId with
                   | some f => some f
                   | none => fid) st2
              | none => Except.ok st2
            else Except.ok st2

/-- Walk the children left-to-right, building each child's XPath segment
from the `nodeType:tag`-keyed sibling counter exactly as the `segs` loop of
the source does. -/
def bbimWalkChildren : Nat → List DOMNode → List (String × Nat) → String →
    Option String → WalkState → Except String WalkState
  | 0, _, _, _, _, _ => Except.error "DOM walk recursion budget exhausted"
  | _ + 1, [], _, _, _, st => Except.ok st
  | fuel + 1, child :: rest, ctr, path, fid, st =>
    let tag := jsToLower child.nodeNameStr
    let key := Int.repr child.nodeType ++ ":" ++ tag
    let idx := (mapGet ctr key).getD 0 + 1
    match bbimWalk fuel child
        (path ++ "/" ++ segFor child.nodeType tag idx) fid st with
    | Except.error e => Except.error e
    | Except.ok st2 =>
      bbimWalkChildren fuel rest (mapSet ctr key idx) path fid st2

end

mutual

/-- Number of `DOMNode` constructors in a tree (children and content
document included); dominates the length of any `bbimWalk` call chain. -/
def DOMNode.treeSize : DOMNode → Nat
  | .mk _ _ _ _ children contentDoc =>
    1 + DOMNode.listSize children +
      (match contentDoc with
       | some d => 1 + DOMNode.treeSize d
       | none => 0)

/-- Sum of `treeSize` over a list, counting each cons cell. -/
def DOMNode.listSize : List DOMNode → Nat
  | [] => 0
  | c :: cs => 1 + DOMNode.treeSize c + DOMNode.listSize cs

end

/-- `buildBackendIdMaps` given the externally fetched DOM root, the resolved
root frame id, and the shared frame-ordinal registry: run the DFS from the
start node with an empty path, fresh maps, and a recursion budget that
dominates the walk's call depth. -/
def buildBackendIdMapsModel (root : DOMNode) (rootFid : Option String)
    (fidSt : FidOrdState) : Except String WalkState :=
  bbimWalk (root.treeSize + 1) root "" rootFid
    { fidState := fidSt, tagNameMap := [], xpathMap := [], seen := [] }

/-- All map keys (and seen entries) of a walk state carry a nonzero backend
id component. -/
def WalkState.KeysNonzero (st : WalkState) : Prop :=
  (∀ p ∈ st.tagNameMap, p.1.2 ≠ 0) ∧ (∀ p ∈ st.xpathMap, p.1.2 ≠ 0) ∧
    (∀ k ∈ st.seen, k.2 ≠ 0)

/-! ## Cross-frame subtree splicing (`injectSubtrees`)

The serialized tree texts are split into lines (`String.split("\n")`); the
`EncodedId → tree` lookup is an association list in insertion order.  The
source's explicit stack of `{lines, idx, indent}` frames with a shared
`out` buffer and `visited` set is written as the equivalent recursion: a
line is emitted with the current frame's indent prefix, and when its
leading bracketed label resolves to an unvisited key, the key's tree is
processed immediately after the line (before the remaining lines) at the
line's leading whitespace plus two spaces, with the key added to `visited`
first — exactly the stack push of the source.  The recursion carries a
depth budget consumed only on descents; the entry point passes
`idToTree.length + 1`, which dominates the nesting depth since every
descent permanently adds a distinct key to `visited`. -/

/-- Render an `EncodedId` pair the way the template string does. -/
def encStr (e : EncodedId) : String :=
  Nat.repr e.1 ++ "-" ++ Nat.repr e.2

/-- JS `"str".split("\n")` on the character list. -/
def splitCharsOnNl : List Char → List (List Char)
  | [] => [[]]
  | c :: cs =>
    match splitCharsOnNl cs with
    | [] => [[]]
    | h :: t => if c = '\n' then [] :: h :: t else (c :: h) :: t

/-- JS `tree.split("\n")`. -/
def splitLines (s : String) : List String :=
  (splitCharsOnNl s.data).map String.mk

/-- JS `out.join("\n")`. -/
def joinLines : List String → String
  | [] => ""
  | [x] => x
  | x :: xs => x ++ "\n" ++ joinLines xs

/-- The regex `/^\s*/` match: the line's leading whitespace. -/
def wsPfx (line : String) : String :=
  String.mk (line.data.takeWhile isJsWs)

/-- The regex `/^\s*\[([^\]]+)]/` applied to a raw line: skip leading
whitespace, require `[`, capture one or more non-`]` characters, require
the closing `]`. -/
def parseLabel (raw : String) : Option String :=
  match raw.data.dropWhile isJsWs with
  | '[' :: rest =>
    let label := rest.takeWhile (fun c => !(c == ']'))
    if label.isEmpty then none
    else
      match rest.drop label.length with
      | ']' :: _ => some (String.mk label)
      | _ => none
  | _ => none

/-- The regex `/^\d+$/`. -/
def isDigits (s : String) : Bool :=
  !(s.data.isEmpty) && s.data.all Char.isDigit

/-- Numeric value of an all-digits label (JS unary `+`). -/
def digitsToNat (s : String) : Nat :=
  s.data.foldl (fun acc c => acc * 10 + (c.toNat - 48)) 0

/-- `uniqueByBackend`: the only key of `idToTree` whose backend-id
component equals `backendId`; `none` when there is no hit or more than
one. -/
def uniqueByBackend (idToTree : List (EncodedId × String))
    (backendId : Nat) : Option EncodedId :=
  match idToTree.filter (fun kv => kv.1.2 == backendId) with
  | [kv] => some kv.1
  | _ => none

/-- Resolve a raw line to the subtree to splice: the bracketed label with
an exact encoded-id match, or — for an all-digits label — the unique
backend-id fallback.  The `!enc || !child` guard of the source is folded
in: a key bound to an *empty* tree string is JS-falsy, so the line is not
splicable (the walk emits it unchanged and leaves the key unvisited). -/
def injectTarget (idToTree : List (EncodedId × String)) (raw : String) :
    Option (EncodedId × String) :=
  match parseLabel raw with
  | none => none
  | some label =>
    let hit :=
      match idToTree.find? (fun kv => encStr kv.1 == label) with
      | some kv => some kv
      | none =>
        if isDigits label then
          match uniqueByBackend idToTree (digitsToNat label) with
          | some e =>
            match mapGet idToTree e with
            | some child => some (e, child)
            | none => none
          | none => none
        else none
    match hit with
    | some (enc, child) => if child == "" then none else some (enc, child)
    | none => none

/-- The splicing walk of `injectSubtrees`: emit each line behind the
current frame's indent; on an unvisited match, mark it visited and process
the subtree's lines (indented two spaces past the line) before the
remaining lines.  Returns the output lines and the final visited set.  One
unit of the step budget is consumed per processed line; a zero budget stops
early (unreachable from the entry point, whose budget covers every line the
walk can ever emit). -/
def injectLines (idToTree : List (EncodedId × String)) :
    Nat → List EncodedId → String → List String →
    List String × List EncodedId
  | 0, visited, _, _ => ([], visited)
  | _ + 1, visited, _, [] => ([], visited)
  | fuel + 1, visited, indent, raw :: rest =>
    let line := indent ++ raw
    match injectTarget idToTree raw with
    | some (enc, child) =>
      if visited.contains enc then
        let r := injectLines idToTree fuel visited indent rest
        (line :: r.1, r.2)
      else
        let rc := injectLines idToTree fuel (enc :: visited)
          (wsPfx line ++ "  ") (splitLines child)
        let rr := injectLines idToTree fuel rc.2 indent rest
        (line :: rc.1 ++ rr.1, rr.2)
    | none =>
      let r := injectLines idToTree fuel visited indent rest
      (line :: r.1, r.2)

/-- A step budget sufficient for `injectSubtrees`: every line of the main
tree plus, for each splicable subtree, its lines and its splice step. -/
def injectFuel (tree : String) (idToTree : List (EncodedId × String)) : Nat :=
  (splitLines tree).length +
    idToTree.foldl (fun a kv => a + (splitLines kv.2).length + 1) 0 + 1

/-- `injectSubtrees(tree, idToTree)`: run the splicing walk over the main
tree's lines with an empty visited set, and join the output lines. -/
def injectSubtrees (tree : String) (idToTree : List (EncodedId × String)) :
    String :=
  joinLines (injectLines idToTree (injectFuel tree idToTree) [] ""
    (splitLines tree)).1

/-! ## Frame-Chain XPath Resolver (`resolveFrameChain`)

The two browser round trips are oracles on an abstract page: whether an
XPath resolves inside a frame context (`resolveObjectIdForXPath`, which
throws on failure), and the content frame of the iframe element located by
a `xpath=` selector (`locator(...).elementHandle().contentFrame()`).
Frames are opaque handles (`Nat`, `none` = main-frame context).  The
unbounded `while (true)` loop carries a step budget: every iteration that
makes progress strips at least the steps up to an `iframe[k]` step, so the
entry point's budget (step count + 1) is sufficient; the budget-exhausted
error is reachable only through the source's divergence case (an
empty-step path that never resolves). -/

/-- Oracle view of the page for the resolver. -/
structure PageOracle where
  resolvesXPath : Option Nat → String → Bool
  contentFrameAt : Option Nat → String → Option Nat

/-- JS `Array.join(sep)`. -/
def joinSep (sep : String) : List String → String
  | [] => ""
  | [x] => x
  | x :: xs => x ++ sep ++ joinSep sep xs

/-- JS `"str".split(sep)` for a one-character separator. -/
def splitCharsOn (sep : Char) : List Char → List (List Char)
  | [] => [[]]
  | c :: cs =>
    match splitCharsOn sep cs with
    | [] => [[]]
    | h :: t => if c = sep then [] :: h :: t else (c :: h) :: t

/-- `path.split("/").filter(Boolean)`. -/
def stepsOf (path : String) : List String :=
  ((splitCharsOn '/' path.data).map String.mk).filter (fun s => !(s == ""))

/-- `IFRAME_STEP_RE = /iframe\[\d+]$/i` applied to one step: the
lower-cased step ends in `]`, preceded by one or more digits, preceded by
`iframe[`. -/
def iframeStepTest (s : String) : Bool :=
  match (jsToLower s).data.reverse with
  | ']' :: rest =>
    let ds := rest.takeWhile Char.isDigit
    !(ds.isEmpty) &&
      List.isPrefixOf ['[', 'e', 'm', 'a', 'r', 'f', 'i'] (rest.drop ds.length)
  | _ => false

/-- The accumulation loop of `resolveFrameChain`: collect steps into `buf`
until one matches the iframe-step regex; `some (buf, rest)` with `buf`
ending in that step, `none` when the steps are exhausted without a match. -/
def splitAtIframeStep : List String → Option (List String × List String)
  | [] => none
  | stp :: rest =>
    if iframeStepTest stp then some ([stp], rest)
    else
      match splitAtIframeStep rest with
      | some (buf, rem) => some (stp :: buf, rem)
      | none => none

/-- Does the string start with `/`? -/
def startsWithSlash (s : String) : Bool :=
  match s.data with
  | '/' :: _ => true
  | _ => false

/-- One `while (true)` round of `resolveFrameChain`: if the whole remaining
path resolves in the current frame context, return the collected chain and
the remainder; otherwise accumulate steps up to the first `iframe[k]` step,
locate that prefix as a `xpath=` selector, descend into its content frame
(failing if there is none) and continue with the rest of the path; fail
when the steps run out without an iframe step. -/
def resolveFrameChainGo (pg : PageOracle) (absPath : String) :
    Nat → Option Nat → List Nat → String → Except String (List Nat × String)
  | 0, _, _, _ => Except.error "frame-chain resolution budget exhausted"
  | fuel + 1, ctxFrame, chain, path =>
    if pg.resolvesXPath ctxFrame path then Except.ok (chain, path)
    else
      let steps := stepsOf path
      match splitAtIframeStep steps with
      | some (buf, rem) =>
        let selector := "xpath=/" ++ joinSep "/" buf
        match pg.contentFrameAt ctxFrame selector with
        | none =>
          Except.error ("Could not obtain contentFrame for " ++ selector)
        | some frame =>
          resolveFrameChainGo pg absPath fuel (some frame) (chain ++ [frame])
            ("/" ++ joinSep "/" rem)
      | none =>
        if steps.isEmpty then
          -- the source spins on an empty step list; the budget runs out
          resolveFrameChainGo pg absPath fuel ctxFrame chain path
        else
          Except.error ("XPath “" ++ absPath ++ "” does not resolve in page")

/-- `resolveFrameChain(sp, absPath)`: normalize the leading slash and run
the loop from the main-frame context with an empty chain. -/
def resolveFrameChain (pg : PageOracle) (absPath : String) :
    Except String (List Nat × String) :=
  let path := if startsWithSlash absPath then absPath else "/" ++ absPath
  resolveFrameChainGo pg absPath ((stepsOf path).length + 1) none [] path

/-- The concrete page of the C6 scenario: the full XPath does not resolve
in the main document, the prefix `/html/body/div/iframe[2]` locates an
iframe whose content frame is frame 1, and `/html/body/span` resolves
there. -/
def pgScenario : PageOracle where
  resolvesXPath := fun ctx p => ctx == some 1 && p == "/html/body/span"
  contentFrameAt := fun ctx sel =>
    if ctx == none && sel == "xpath=/html/body/div/iframe[2]" then some 1
    else none

/-! ## Cross-Frame Stitcher: snapshot collection and XPath-map merge
(`getAccessibilityTreeWithFrames`, steps 2–3)

A page is a tree of frames.  For each frame the browser-side evaluation
`getFrameRootXpath` walks `parentElement` from the owning `<iframe>`
element — a walk that cannot leave the frame's *parent document* — so its
result is the iframe element's XPath relative to the immediate parent
document; the code stores `"/"` for the main frame.  Each frame's local
XPath map (built by `getAccessibilityTree`) is an input.  The stack-based
frame walk pushes all child frames and pops last-in-first-out, so
snapshots are collected in DFS order with children visited in reverse;
step 3 then merges the local maps by prefixing each entry with the owning
snapshot's `frameXpath` (a `Record` assignment: the last writer wins). -/

/-- A frame of the page: its `getFrameRootXpath` value (parent-relative;
`"/"` for the main frame), its local XPath map, and its child frames. -/
inductive FrameTree where
  | mk (xpathInParent : String) (xpathMap : List (EncodedId × String))
      (children : List FrameTree)

/-- One collected snapshot: `frameXpath` plus the local XPath map. -/
abbrev Snap := String × List (EncodedId × String)

mutual

/-- Snapshot collection order of the stack-based frame walk: the frame
itself, then the subtrees of its children, last child first. -/
def collectSnapshots : FrameTree → List Snap
  | .mk fx xm children => (fx, xm) :: collectSnapshotsRev children

/-- Walk a child list in reverse (LIFO pop order of the stack). -/
def collectSnapshotsRev : List FrameTree → List Snap
  | [] => []
  | c :: cs => collectSnapshotsRev cs ++ collectSnapshots c

end

/-- Step 3's per-entry combination:
`prefix + (local.startsWith("/") || !prefix ? "" : "/") + local` with
`prefix` empty for the main frame's `"/"`. -/
def joinFramePath (frameXpath localPath : String) : String :=
  let pfxStr := if frameXpath == "/" then "" else frameXpath
  pfxStr ++
    (if startsWithSlash localPath || pfxStr == "" then "" else "/") ++
    localPath

/-- Step 3: merge every snapshot's local XPath map into one combined map,
prefixing each local XPath with that snapshot's own `frameXpath`. -/
def mergeXpathMaps (snapshots : List Snap) : List (EncodedId × String) :=
  snapshots.foldl
    (fun acc snap =>
      snap.2.foldl
        (fun acc2 p => mapSet acc2 p.1 (joinFramePath snap.1 p.2)) acc)
    []

/-- The combined XPath map `getAccessibilityTreeWithFrames` returns for a
page (no focus XPath: every frame is extracted). -/
def combinedXpathMapOf (page : FrameTree) : List (EncodedId × String) :=
  mergeXpathMaps (collectSnapshots page)

/-- Modelled from the spec: "prefixing each local XPath with the owning
frame's root-relative XPath chain" — the full chain of owning-iframe
XPaths (outermost first) prefixed onto the frame-local XPath.  Used only
to compare the spec's claimed value with what the code computes. -/
def chainPrefixedXpath : List String → String → String
  | [], lp => lp
  | fx :: rest, lp => joinFramePath fx (chainPrefixedXpath rest lp)

/-- The depth-2 page of the C1 counterexample: the main document holds one
iframe (frame A) at `/html[1]/body[1]/iframe[1]`, which holds another
iframe (frame B) at the same parent-relative position; frame B's local map
has one element. -/
def cexPage : FrameTree :=
  .mk "/" []
    [.mk "/html[1]/body[1]/iframe[1]" []
      [.mk "/html[1]/body[1]/iframe[1]"
        [((2, 7), "/html[1]/body[1]/span[1]")] []]]

/-- JS object write sequence underlying the merge: every snapshot entry in
order, already prefixed. -/
def mergeWrites : List Snap → List (EncodedId × String)
  | [] => []
  | snap :: rest =>
    snap.2.map (fun p => (p.1, joinFramePath snap.1 p.2)) ++ mergeWrites rest

/-- Apply a write sequence to an accumulator map (`Record` assignment). -/
def applyWrites (ws : List (EncodedId × String))
    (acc : List (EncodedId × String)) : List (EncodedId × String) :=
  ws.foldl (fun a p => mapSet a p.1 p.2) acc

end Stagehand

namespace Stagehand

/-! ## Theorems: Text Normalizer (C10) -/

theorem cleanLoop_eq_map_of_noCollapse (l : List Char) :
    ∀ prev : Bool,
      noCollapse (l.filter (fun c => !(isPUA c))) prev = true →
      cleanLoop l prev =
        (l.filter (fun c => !(isPUA c))).map
          (fun c => if isNbspChar c then ' ' else c) := by
  induction l with
  | nil => intro prev _; rfl
  | cons c cs ih =>
    intro prev h
    by_cases hp : isPUA c = true
    · have hfilter : (c :: cs).filter (fun c => !(isPUA c)) =
        cs.filter (fun c => !(isPUA c)) := by
        simp [List.filter, hp]
      rw [hfilter] at h
      simpa [cleanLoop, hp, hfilter] using ih prev h
    · have hfilter : (c :: cs).filter (fun c => !(isPUA c)) =
        c :: cs.filter (fun c => !(isPUA c)) := by
        simp [List.filter, hp]
      rw [hfilter] at h
      simp only [noCollapse, Bool.and_eq_true] at h
      obtain ⟨hhead, htail⟩ := h
      by_cases hn : isNbspChar c = true
      · have hprev : prev = false := by
          cases prev with
          | false => rfl
          | true => simp [hn] at hhead
        subst hprev
        have hflag : (c == ' ' || isNbspChar c) = true := by simp [hn]
        rw [hflag] at htail
        simp [cleanLoop, hp, hn, hfilter, ih true htail]
      · have hflag : (c == ' ' || isNbspChar c) = (c == ' ') := by simp [hn]
        rw [hflag] at htail
        simp [cleanLoop, hp, hn, hfilter, ih (c == ' ') htail]

/-- C10 counterexample: on `"a␠␠b"` written with two non-breaking spaces,
the first-generation `cleanText` keeps both converted spaces (`"a  b"`)
while the second generation collapses the run (`"a b"`), so the two
generations are not equivalent. -/
theorem cleanText_generations_differ :
    cleanTextV1 (String.mk ['a', '\u00A0', '\u00A0', 'b']) =
        String.mk ['a', ' ', ' ', 'b'] ∧
      cleanTextV2 (String.mk ['a', '\u00A0', '\u00A0', 'b']) =
        String.mk ['a', ' ', 'b'] ∧
      cleanTextV1 (String.mk ['a', '\u00A0', '\u00A0', 'b']) ≠
        cleanTextV2 (String.mk ['a', '\u00A0', '\u00A0', 'b']) := by
  refine ⟨by decide, by decide, by decide⟩

/-- C10 amended: the two generations of `cleanText` agree on every input in
which, after removing private-use-area glyphs, no NBSP-family character
immediately follows a space or another NBSP-family character (so the v2
collapsing branch never fires).  They are not equivalent in general, as the
counterexample shows; inputs violating the condition may still happen to
agree (e.g. when the collapsed run is trimmed away). -/
theorem cleanText_generations_agree_of_noCollapse (input : String)
    (h : noCollapse (input.data.filter (fun c => !(isPUA c))) false = true) :
    cleanTextV1 input = cleanTextV2 input := by
  unfold cleanTextV1 cleanTextV2
  rw [cleanLoop_eq_map_of_noCollapse input.data false h]

/-- Witness for the amended C10 theorem at the concrete input `"a␠b"`
(single non-breaking space). -/
theorem cleanText_generations_agree_witness :
    cleanTextV1 (String.mk ['a', '\u00A0', 'b']) =
      cleanTextV2 (String.mk ['a', '\u00A0', 'b']) :=
  cleanText_generations_agree_of_noCollapse (String.mk ['a', '\u00A0', 'b'])
    (by decide)

/-! ## Theorems: Frame Ordinal Registry (C2) -/

theorem mapGet_mem {α β : Type} [DecidableEq α] {l : List (α × β)} {a : α}
    {b : β} (h : mapGet l a = some b) : (a, b) ∈ l := by
  induction l with
  | nil => simp [mapGet] at h
  | cons kv rest ih =>
    obtain ⟨k, v⟩ := kv
    by_cases hk : k = a
    · subst hk
      simp [mapGet] at h
      subst h
      exact List.mem_cons_self _ _
    · simp [mapGet, hk] at h
      exact List.mem_cons_of_mem _ (ih h)

theorem mapGet_append {α β : Type} [DecidableEq α] (l₁ l₂ : List (α × β))
    (a : α) :
    mapGet (l₁ ++ l₂) a =
      match mapGet l₁ a with
      | some b => some b
      | none => mapGet l₂ a := by
  induction l₁ with
  | nil => simp [mapGet]
  | cons kv rest ih =>
    obtain ⟨k, v⟩ := kv
    by_cases hk : k = a <;> simp [mapGet, hk, ih]

theorem mapGet_inj {α β : Type} [DecidableEq α] [DecidableEq β]
    {l : List (α × β)} (hnd : (l.map Prod.snd).Nodup) {f1 f2 : α} {o : β}
    (h1 : mapGet l f1 = some o) (h2 : mapGet l f2 = some o) : f1 = f2 := by
  induction l with
  | nil => simp [mapGet] at h1
  | cons kv rest ih =>
    obtain ⟨k, v⟩ := kv
    simp only [List.map_cons, List.nodup_cons] at hnd
    obtain ⟨hv, hrest⟩ := hnd
    by_cases hk1 : k = f1 <;> by_cases hk2 : k = f2
    · exact hk1 ▸ hk2
    · subst hk1
      simp [mapGet] at h1
      simp [mapGet, hk2] at h2
      subst h1
      exact absurd (List.mem_map_of_mem Prod.snd (mapGet_mem h2)) hv
    · subst hk2
      simp [mapGet] at h2
      simp [mapGet, hk1] at h1
      subst h2
      exact absurd (List.mem_map_of_mem Prod.snd (mapGet_mem h1)) hv
    · simp [mapGet, hk1] at h1
      simp [mapGet, hk2] at h2
      exact ih hrest h1 h2

theorem OrdState.WF.lookup_lt {s : OrdState} (hWF : s.WF) {f : Option Nat}
    {o : Nat} (h : mapGet s.frameToOrdinal f = some o) :
    o < s.frameToOrdinal.length := by
  have hmem : o ∈ s.frameToOrdinal.map Prod.snd :=
    List.mem_map_of_mem Prod.snd (mapGet_mem h)
  rw [hWF] at hmem
  exact List.mem_range.mp hmem

theorem getFrameOrdinal_WF {s : OrdState} (hWF : s.WF) (f : Option Nat) :
    ((getFrameOrdinal s f).2).WF := by
  unfold getFrameOrdinal
  rcases hm : mapGet s.frameToOrdinal f with _ | o
  · by_cases hlen : s.frameToOrdinal.length > 99
    · simpa [hm, hlen] using hWF
    · simp only [hm, hlen, if_false]
      show OrdState.WF _
      unfold OrdState.WF at hWF ⊢
      simp [List.map_append, List.length_append, hWF, List.range_succ]
  · simpa [hm] using hWF

theorem runOrdinals_WF (fs : List (Option Nat)) : (runOrdinals fs).WF := by
  have hgen : ∀ (l : List (Option Nat)) (s : OrdState), s.WF →
      (l.foldl (fun s f => (getFrameOrdinal s f).2) s).WF := by
    intro l
    induction l with
    | nil => intro s hs; exact hs
    | cons f rest ih =>
      intro s hs
      exact ih _ (getFrameOrdinal_WF hs f)
  exact hgen fs OrdState.empty (by simp [OrdState.empty, OrdState.WF])

/-- C2: in any registry state reachable within one page lifetime,
`getFrameOrdinal` (a) is idempotent — a repeated call for the same frame
returns the same ordinal and leaves the state unchanged, (b) assigns
distinct ordinals to distinct frames registered in sequence, (c) throws
exactly when the frame is unregistered and 100 distinct frames are already
registered (so the call would register the 101st), and (d) a throwing call
leaves the registry unchanged. -/
theorem frame_ordinal_registry_spec (fs : List (Option Nat))
    (f f1 f2 : Option Nat) :
    (∀ o s1, getFrameOrdinal (runOrdinals fs) f = (Except.ok o, s1) →
        getFrameOrdinal s1 f = (Except.ok o, s1)) ∧
    (∀ o1 s1 o2 s2, f1 ≠ f2 →
        getFrameOrdinal (runOrdinals fs) f1 = (Except.ok o1, s1) →
        getFrameOrdinal s1 f2 = (Except.ok o2, s2) → o1 ≠ o2) ∧
    ((∃ e, (getFrameOrdinal (runOrdinals fs) f).1 = Except.error e) ↔
        mapGet (runOrdinals fs).frameToOrdinal f = none ∧
          99 < (runOrdinals fs).frameToOrdinal.length) ∧
    (∀ e, (getFrameOrdinal (runOrdinals fs) f).1 = Except.error e →
        (getFrameOrdinal (runOrdinals fs) f).2 = runOrdinals fs) := by
  have hWF := runOrdinals_WF fs
  set s := runOrdinals fs with hs
  have hnd : (s.frameToOrdinal.map Prod.snd).Nodup := by
    rw [hWF]; exact List.nodup_range _
  refine ⟨?_, ?_, ?_, ?_⟩
  · -- idempotence
    intro o s1 h
    rcases hm : mapGet s.frameToOrdinal f with _ | o'
    · by_cases hlen : s.frameToOrdinal.length > 99
      · simp [getFrameOrdinal, hm, hlen] at h
      · simp only [getFrameOrdinal, hm, hlen, if_false, Prod.mk.injEq, Except.ok.injEq] at h
        obtain ⟨ho, hs1⟩ := h
        have hlook : mapGet s1.frameToOrdinal f =
            some s.frameToOrdinal.length := by
          rw [← hs1]
          rw [mapGet_append]
          simp [hm, mapGet]
        simp [getFrameOrdinal, hlook, ← ho, hs1]
    · simp only [getFrameOrdinal, hm, Prod.mk.injEq, Except.ok.injEq] at h
      obtain ⟨ho, hs1⟩ := h
      simp [getFrameOrdinal, ← hs1, hm, ho]
  · -- injectivity along a call sequence
    intro o1 s1 o2 s2 hne h1 h2
    rcases hm1 : mapGet s.frameToOrdinal f1 with _ | o1'
    · -- f1 freshly registered
      by_cases hlen : s.frameToOrdinal.length > 99
      · simp [getFrameOrdinal, hm1, hlen] at h1
      · simp only [getFrameOrdinal, hm1, hlen, if_false, Prod.mk.injEq, Except.ok.injEq] at h1
        obtain ⟨ho1, hs1⟩ := h1
        have hlook : mapGet s1.frameToOrdinal f2 = mapGet s.frameToOrdinal f2 := by
          rw [← hs1]
          rw [mapGet_append]
          rcases hm2 : mapGet s.frameToOrdinal f2 with _ | o2'
          · simp [mapGet, hne]
          · simp
        rcases hm2 : mapGet s.frameToOrdinal f2 with _ | o2'
        · -- f2 also fresh: gets length of s1 = length s + 1
          rw [hm2] at hlook
          by_cases hlen2 : s1.frameToOrdinal.length > 99
          · simp [getFrameOrdinal, hlook, hlen2] at h2
          · simp only [getFrameOrdinal, hlook, hlen2, if_false,
              Prod.mk.injEq, Except.ok.injEq] at h2
            obtain ⟨ho2, _⟩ := h2
            have : s1.frameToOrdinal.length = s.frameToOrdinal.length + 1 := by
              rw [← hs1]; simp
            omega
        · -- f2 cached: its ordinal predates f1's fresh one
          rw [hm2] at hlook
          simp only [getFrameOrdinal, hlook, Prod.mk.injEq, Except.ok.injEq] at h2
          obtain ⟨ho2, _⟩ := h2
          have hlt : o2' < s.frameToOrdinal.length := hWF.lookup_lt hm2
          omega
    · -- f1 cached
      simp only [getFrameOrdinal, hm1, Prod.mk.injEq, Except.ok.injEq] at h1
      obtain ⟨ho1, hs1⟩ := h1
      rcases hm2 : mapGet s.frameToOrdinal f2 with _ | o2'
      · -- f2 fresh: gets the current length, above any cached ordinal
        rw [← hs1] at h2
        by_cases hlen : s.frameToOrdinal.length > 99
        · simp [getFrameOrdinal, hm2, hlen] at h2
        · simp only [getFrameOrdinal, hm2, hlen, if_false,
            Prod.mk.injEq, Except.ok.injEq] at h2
          obtain ⟨ho2, _⟩ := h2
          have hlt : o1' < s.frameToOrdinal.length := hWF.lookup_lt hm1
          omega
      · -- both cached: value-injectivity
        rw [← hs1] at h2
        simp only [getFrameOrdinal, hm2, Prod.mk.injEq, Except.ok.injEq] at h2
        obtain ⟨ho2, _⟩ := h2
        intro heq
        apply hne
        exact mapGet_inj hnd hm1 (by rw [hm2, ho2, ← heq, ho1])
  · -- error characterisation
    rcases hm : mapGet s.frameToOrdinal f with _ | o
    · by_cases hlen : s.frameToOrdinal.length > 99
      · simp [getFrameOrdinal, hm, hlen]
      · constructor
        · rintro ⟨e, he⟩
          simp [getFrameOrdinal, hm, hlen] at he
        · rintro ⟨-, hgt⟩
          omega
    · constructor
      · rintro ⟨e, he⟩
        simp [getFrameOrdinal, hm] at he
      · rintro ⟨hnone, -⟩
        simp at hnone
  · -- a throw leaves the registry unchanged
    intro e he
    rcases hm : mapGet s.frameToOrdinal f with _ | o
    · by_cases hlen : s.frameToOrdinal.length > 99
      · simp [getFrameOrdinal, hm, hlen]
      · simp [getFrameOrdinal, hm, hlen] at he
    · simp [getFrameOrdinal, hm] at he

/-- Witness for C2: starting from a fresh page, registering the main frame
then a distinct child frame yields ordinals 0 and 1, which differ. -/
theorem frame_ordinal_registry_spec_witness : (0 : Nat) ≠ 1 :=
  (frame_ordinal_registry_spec [] none none (some 5)).2.1 0
    ⟨[(none, 0)], [(0, none)]⟩ 1
    ⟨[(none, 0), (some 5, 1)], [(0, none), (1, some 5)]⟩
    (by decide) (by rfl) (by rfl)

/-! ## Theorems: structural-node cleaning (C3) and StaticText dedup (C4) -/

/-- C3: for an accessibility node with role `generic` or `none` and a
non-negative node id, `cleanStructuralNodes` removes the node entirely when
no child survives recursive cleaning, and replaces it by its single
surviving child when exactly one survives (so the wrapper itself never
appears in the cleaned tree). -/
theorem cleanStructuralNodes_wrapper_spec
    (tagNameMap : EncodedId → Option String) (nodeId : Int) (role : String)
    (name : Option String) (enc : Option EncodedId) (children : List AXTree)
    (hrole : role = "generic" ∨ role = "none") (hid : ¬ nodeId < 0) :
    (cleanChildren tagNameMap children = [] →
      cleanStructuralNodes tagNameMap
        (AXTree.node nodeId role name enc children) = none) ∧
    (∀ c, cleanChildren tagNameMap children = [c] →
      cleanStructuralNodes tagNameMap
        (AXTree.node nodeId role name enc children) = some c) := by
  constructor
  · intro hcc
    rcases hrole with h | h <;> subst h <;>
      cases children with
      | nil => simp [cleanStructuralNodes, hid]
      | cons c0 cs => simp [cleanStructuralNodes, hid, hcc]
  · intro c hcc
    rcases hrole with h | h <;> subst h <;>
      cases children with
      | nil => simp [cleanChildren] at hcc
      | cons c0 cs => simp [cleanStructuralNodes, hid, hcc]

/-- Witness for C3: a `generic` wrapper around one `button` child collapses
onto the child. -/
theorem cleanStructuralNodes_wrapper_spec_witness :
    cleanStructuralNodes (fun _ => none)
      (AXTree.node 1 "generic" none none
        [AXTree.node 2 "button" (some "Go") none []]) =
      some (AXTree.node 2 "button" (some "Go") none []) :=
  (cleanStructuralNodes_wrapper_spec (fun _ => none) 1 "generic" none none
      [AXTree.node 2 "button" (some "Go") none []]
      (Or.inl rfl) (by decide)).2
    (AXTree.node 2 "button" (some "Go") none [])
    (by simp [cleanChildren, cleanStructuralNodes])

/-- C4: for a node with a non-empty accessible name, the direct
`StaticText`-role children are removed exactly when the concatenation of
their whitespace-normalized, trimmed names equals the parent's
whitespace-normalized, trimmed name; otherwise all children are returned
unchanged and in order. -/
theorem removeRedundantStaticText_spec (parent : AXTree)
    (children : List AXTree) (s : String) (hname : parent.name = some s)
    (hs : s ≠ "") :
    (joinedStaticText children = jsTrim (normaliseSpaces s) →
      removeRedundantStaticTextChildren parent children =
        children.filter (fun c => !(c.role == "StaticText"))) ∧
    (joinedStaticText children ≠ jsTrim (normaliseSpaces s) →
      removeRedundantStaticTextChildren parent children = children) := by
  have htruthy : jsTruthy (some s) = true := by simp [jsTruthy, hs]
  constructor
  · intro hj
    simp [removeRedundantStaticTextChildren, htruthy, hname, hj]
  · intro hj
    simp [removeRedundantStaticTextChildren, htruthy, hname, hj]

/-- Witness for C4: a link named `"Hello world"` with one StaticText child
whose normalized text matches loses that child while keeping its other
child. -/
theorem removeRedundantStaticText_spec_witness :
    removeRedundantStaticTextChildren
      (AXTree.node 1 "link" (some "Hello world") none [])
      [AXTree.node 2 "StaticText" (some " Hello  world ") none [],
       AXTree.node 3 "button" none none []] =
      [AXTree.node 3 "button" none none []] := by
  have h := (removeRedundantStaticText_spec
      (AXTree.node 1 "link" (some "Hello world") none [])
      [AXTree.node 2 "StaticText" (some " Hello  world ") none [],
       AXTree.node 3 "button" none none []]
      "Hello world" rfl (by decide)).1 (by decide)
  simpa [AXTree.role] using h

/-! ## Theorems: scrollable decoration (C7) and action dispatch (C9) -/

/-- C7: `decorateRoles` maps each node independently; the role is rewritten
exactly on nodes whose backend id is in the scrollable set — prefixed with
`"scrollable, "` for a truthy non-`generic`/`none` role, set to exactly
`"scrollable"` for a `generic`/`none` wrapper — while every other field,
and every non-scrollable node's role, is carried over unchanged. -/
theorem decorateRoles_spec (nodes : List AXNodeRaw) (scrollables : List Int) :
    decorateRoles nodes scrollables = nodes.map (decorateRole1 scrollables) ∧
    ∀ n : AXNodeRaw,
      ((decorateRole1 scrollables n).name = n.name ∧
        (decorateRole1 scrollables n).description = n.description ∧
        (decorateRole1 scrollables n).value = n.value ∧
        (decorateRole1 scrollables n).nodeId = n.nodeId ∧
        (decorateRole1 scrollables n).backendDOMNodeId = n.backendDOMNodeId ∧
        (decorateRole1 scrollables n).parentId = n.parentId ∧
        (decorateRole1 scrollables n).childIds = n.childIds ∧
        (decorateRole1 scrollables n).properties = n.properties) ∧
      (axInScrollables n scrollables = false →
        (decorateRole1 scrollables n).role = n.role.getD "") ∧
      (axInScrollables n scrollables = true →
        (n.role.getD "" ≠ "" ∧ n.role.getD "" ≠ "generic" ∧
            n.role.getD "" ≠ "none" →
          (decorateRole1 scrollables n).role =
            "scrollable, " ++ n.role.getD "") ∧
        ((n.role.getD "" = "generic" ∨ n.role.getD "" = "none") →
          (decorateRole1 scrollables n).role = "scrollable")) := by
  refine ⟨rfl, fun n => ⟨?_, ?_, ?_⟩⟩
  · exact ⟨rfl, rfl, rfl, rfl, rfl, rfl, rfl, rfl⟩
  · intro hsc
    simp [decorateRole1, hsc]
  · intro hsc
    constructor
    · intro hrole
      simp [decorateRole1, hsc, hrole]
    · intro hrole
      have : ¬(n.role.getD "" ≠ "" ∧ n.role.getD "" ≠ "generic" ∧
          n.role.getD "" ≠ "none") := by
        rcases hrole with h | h <;> simp [h]
      simp [decorateRole1, hsc, this]

/-- Witness for C7: a scrollable `list` node gets role `"scrollable, list"`
through the theorem's prefixing clause. -/
theorem decorateRoles_spec_witness :
    (decorateRole1 [7]
        { role := some "list", name := none, description := none,
          value := none, nodeId := 1, backendDOMNodeId := some 7,
          parentId := none, childIds := [], properties := [] }).role =
      "scrollable, list" :=
  (((decorateRoles_spec [] [7]).2
      { role := some "list", name := none, description := none,
        value := none, nodeId := 1, backendDOMNodeId := some 7,
        parentId := none, childIds := [], properties := [] }).2.2
    (by decide)).1 (by decide)

/-- C9: `performPlaywrightMethod` takes the `unsupported` path — throwing the
method-not-supported error, attempting no element action — exactly when the
method is none of `scrollIntoView`, `fill`, `type`, `press` and the locator
capability exposes no function of that name; the error message names the
rejected method. -/
theorem performPlaywrightMethod_unsupported_spec (method : String)
    (locatorHasFn : String → Bool) (msg : String) :
    methodDispatch method locatorHasFn = DispatchPlan.unsupported msg ↔
      (method ≠ "scrollIntoView" ∧ method ≠ "fill" ∧ method ≠ "type" ∧
        method ≠ "press" ∧ locatorHasFn method = false ∧
        msg = "Method " ++ method ++ " not supported") := by
  unfold methodDispatch
  split_ifs with h1 h2 h3 h4
  · simp [h1]
  · rcases h2 with h | h <;> simp [h]
  · simp [h3]
  · simp [h4]
  · simp only [not_or] at h2
    simp only [Bool.not_eq_true] at h4
    constructor
    · intro h
      injection h with hm
      exact ⟨h1, h2.1, h2.2, h3, h4, hm.symm⟩
    · rintro ⟨-, -, -, -, -, hmsg⟩
      rw [hmsg]

/-- Witness for C9: `hover` against a locator exposing no functions is
rejected with a message naming `hover`. -/
theorem performPlaywrightMethod_unsupported_spec_witness :
    methodDispatch "hover" (fun _ => false) =
      DispatchPlan.unsupported "Method hover not supported" :=
  (performPlaywrightMethod_unsupported_spec "hover" (fun _ => false)
      "Method hover not supported").mpr
    ⟨by decide, by decide, by decide, by decide, rfl, by decide⟩

/-! ## Theorems: DOM Backend-Id Mapper key policy (C8) -/

theorem mapSet_mem {α β : Type} [DecidableEq α] {l : List (α × β)} {a : α}
    {b : β} : ∀ p ∈ mapSet l a b, p ∈ l ∨ p.1 = a := by
  induction l with
  | nil => intro p hp; simp [mapSet] at hp; simp [hp]
  | cons kv rest ih =>
    obtain ⟨k, v⟩ := kv
    intro p hp
    by_cases hk : k = a
    · simp [mapSet, hk] at hp
      rcases hp with hp | hp
      · simp [hp]
      · exact Or.inl (List.mem_cons_of_mem _ hp)
    · simp [mapSet, hk] at hp
      rcases hp with hp | hp
      · simp [hp]
      · rcases ih p hp with h | h
        · exact Or.inl (List.mem_cons_of_mem _ h)
        · exact Or.inr h

theorem jsFalsyId_getD {bid : Option Int} (h : ¬ jsFalsyId bid = true) :
    bid.getD 0 ≠ 0 := by
  cases bid with
  | none => simp [jsFalsyId] at h
  | some b => simpa [jsFalsyId] using h

theorem keysNonzero_step {st : WalkState} (hInv : st.KeysNonzero)
    (enc : BackendKey) (henc : enc.2 ≠ 0) (fidSt : FidOrdState)
    (tag path' : String) :
    WalkState.KeysNonzero
      ⟨fidSt, mapSet st.tagNameMap enc tag, mapSet st.xpathMap enc path',
        st.seen ++ [enc]⟩ := by
  obtain ⟨h1, h2, h3⟩ := hInv
  refine ⟨?_, ?_, ?_⟩
  · intro p hp
    rcases mapSet_mem p hp with h | h
    · exact h1 p h
    · rw [h]; exact henc
  · intro p hp
    rcases mapSet_mem p hp with h | h
    · exact h2 p h
    · rw [h]; exact henc
  · intro k hk
    rcases List.mem_append.mp hk with h | h
    · exact h3 k h
    · simp at h; rw [h]; exact henc

theorem bbim_nonzero_all (fuel : Nat) :
    (∀ (node : DOMNode) (path : String) (fid : Option String)
        (st : WalkState) (st' : WalkState),
        bbimWalk fuel node path fid st = Except.ok st' →
        st.KeysNonzero → st'.KeysNonzero) ∧
    (∀ (kids : List DOMNode) (ctr : List (String × Nat)) (path : String)
        (fid : Option String) (st : WalkState) (st' : WalkState),
        bbimWalkChildren fuel kids ctr path fid st = Except.ok st' →
        st.KeysNonzero → st'.KeysNonzero) := by
  induction fuel with
  | zero =>
    constructor
    · intro node path fid st st' h
      simp [bbimWalk] at h
    · intro kids ctr path fid st st' h
      simp [bbimWalkChildren] at h
  | succ fuel ih =>
    obtain ⟨ihW, ihC⟩ := ih
    constructor
    · rintro ⟨bid, nodeName, nodeType, frameId, children, contentDoc⟩
        path fid st st' h hInv
      by_cases hfalsy : jsFalsyId bid = true
      · simp only [bbimWalk, hfalsy, if_true, Except.ok.injEq] at h
        exact h ▸ hInv
      · simp only [bbimWalk, hfalsy, Bool.false_eq_true, if_false] at h
        rcases hord : ordinalForFrameId st.fidState fid with e | ⟨o, fidSt⟩ <;>
          rw [hord] at h
        · simp at h
        · simp only at h
          by_cases hseen : st.seen.contains (o, bid.getD 0) = true
          · simp only [hseen, if_true, Except.ok.injEq] at h
            obtain ⟨hi1, hi2, hi3⟩ := hInv
            subst h
            exact ⟨hi1, hi2, hi3⟩
          · simp only [hseen, Bool.false_eq_true, if_false] at h
            rcases hkids : bbimWalkChildren fuel children [] path fid
                { fidState := fidSt,
                  tagNameMap := mapSet st.tagNameMap (o, bid.getD 0)
                    (jsToLower (nodeName.getD "undefined")),
                  xpathMap := mapSet st.xpathMap (o, bid.getD 0) path,
                  seen := st.seen ++ [(o, bid.getD 0)] } with e | st2 <;>
              rw [hkids] at h
            · simp at h
            · have hInv1 := keysNonzero_step hInv (o, bid.getD 0)
                (jsFalsyId_getD hfalsy) fidSt
                (jsToLower (nodeName.getD "undefined")) path
              have hInv2 : st2.KeysNonzero :=
                ihC children [] path fid _ st2 hkids hInv1
              simp only at h
              by_cases hframe : jsToLower (nodeName.getD "undefined") = "iframe"
              · rw [if_pos hframe] at h
                cases contentDoc with
                | none =>
                  simp only [Except.ok.injEq] at h
                  exact h ▸ hInv2
                | some doc => exact ihW doc _ _ st2 st' h hInv2
              · rw [if_neg hframe] at h
                simp only [Except.ok.injEq] at h
                exact h ▸ hInv2
    · intro kids ctr path fid st st' h hInv
      cases kids with
      | nil =>
        simp only [bbimWalkChildren, Except.ok.injEq] at h
        exact h ▸ hInv
      | cons child rest =>
        simp only [bbimWalkChildren] at h
        rcases hchild : bbimWalk fuel child
            (path ++ "/" ++ segFor child.nodeType (jsToLower child.nodeNameStr)
              ((mapGet ctr (Int.repr child.nodeType ++ ":" ++
                jsToLower child.nodeNameStr)).getD 0 + 1)) fid st with e | st2 <;>
          rw [hchild] at h
        · simp at h
        · simp only at h
          exact ihC rest _ path fid st2 st' h (ihW child _ fid st st2 hchild hInv)

/-- C8 counterexample: a DOM node with the *negative* backend id `-5` is not
skipped by the walk — `!node.backendNodeId` only filters missing/zero ids —
so both maps receive the key `0--5`, whose backend component is negative
rather than strictly positive. -/
theorem buildBackendIdMaps_negative_id_counterexample :
    buildBackendIdMapsModel
        (DOMNode.mk (some (-5)) (some "DIV") 1 none [] none) none ⟨[]⟩ =
      Except.ok
        { fidState := ⟨[]⟩, tagNameMap := [((0, -5), "div")],
          xpathMap := [((0, -5), "")], seen := [(0, -5)] } ∧
    ((-5 : Int) < 0) := by
  constructor
  · rfl
  · decide

/-- C8 amended: the walk of `buildBackendIdMaps` skips exactly the nodes
with a *falsy* backend id (missing or zero) — so every key of the produced
`tagNameMap`/`xpathMap` encodes a nonzero (but not necessarily positive)
backend id; a negative backend id is not filtered, as the counterexample
shows. -/
theorem buildBackendIdMaps_nonzero_keys (root : DOMNode)
    (rootFid : Option String) (fidSt : FidOrdState) (st : WalkState)
    (h : buildBackendIdMapsModel root rootFid fidSt = Except.ok st) :
    (∀ p ∈ st.tagNameMap, p.1.2 ≠ 0) ∧ (∀ p ∈ st.xpathMap, p.1.2 ≠ 0) := by
  have h0 : WalkState.KeysNonzero ⟨fidSt, [], [], []⟩ := by
    refine ⟨?_, ?_, ?_⟩ <;> intro p hp <;> simp at hp
  have hall := (bbim_nonzero_all (root.treeSize + 1)).1 root "" rootFid _ st h h0
  exact ⟨hall.1, hall.2.1⟩

/-- Witness for the amended C8 theorem: a single `DIV` with backend id 7
produces maps whose only key carries the nonzero backend component 7. -/
theorem buildBackendIdMaps_nonzero_keys_witness :
    ((((0 : Nat), (7 : Int)), "div")).1.2 ≠ 0 :=
  (buildBackendIdMaps_nonzero_keys
      (DOMNode.mk (some 7) (some "DIV") 1 none [] none) none ⟨[]⟩
      { fidState := ⟨[]⟩, tagNameMap := [((0, 7), "div")],
        xpathMap := [((0, 7), "")], seen := [(0, 7)] }
      (by rfl)).1 (((0, 7), "div")) (by decide)

/-! ## Theorems: subtree splicing (C5) -/

/-- C5: (i) whenever a line's leading bracketed identifier resolves via
`injectTarget` — an exact encoded-id match, or a bare-number label matching
exactly one key's backend id, bound to a non-empty (JS-truthy) tree — to an
unvisited key, the splicing walk emits the line and then processes that
key's subtree, indented two spaces past the line's own leading whitespace,
before the remaining lines, having added the key to the visited set (so
the splice recurses into the inserted content); (ii) the visited set only
grows and stays duplicate-free, so each key's subtree is inserted at most
once even for cyclic maps. -/
theorem injectSubtrees_spec :
    (∀ (idToTree : List (EncodedId × String)) (fuel : Nat)
        (visited : List EncodedId) (indent raw : String)
        (rest : List String) (enc : EncodedId) (child : String),
        injectTarget idToTree raw = some (enc, child) →
        visited.contains enc = false →
        injectLines idToTree (fuel + 1) visited indent (raw :: rest) =
          ((indent ++ raw) ::
            (injectLines idToTree fuel (enc :: visited)
              (wsPfx (indent ++ raw) ++ "  ") (splitLines child)).1 ++
            (injectLines idToTree fuel
              (injectLines idToTree fuel (enc :: visited)
                (wsPfx (indent ++ raw) ++ "  ") (splitLines child)).2
              indent rest).1,
            (injectLines idToTree fuel
              (injectLines idToTree fuel (enc :: visited)
                (wsPfx (indent ++ raw) ++ "  ") (splitLines child)).2
              indent rest).2)) ∧
    (∀ (idToTree : List (EncodedId × String)) (fuel : Nat)
        (visited : List EncodedId) (indent : String) (lines : List String),
        visited.Nodup →
        ((injectLines idToTree fuel visited indent lines).2).Nodup ∧
        ∃ pre, (injectLines idToTree fuel visited indent lines).2 =
          pre ++ visited) := by
  constructor
  · intro idToTree fuel visited indent raw rest enc child ht hv
    simp only [injectLines, ht, hv, Bool.false_eq_true, if_false]
  · intro idToTree fuel
    induction fuel with
    | zero =>
      intro visited indent lines h
      exact ⟨h, [], rfl⟩
    | succ fuel ih =>
      intro visited indent lines h
      cases lines with
      | nil => exact ⟨h, [], rfl⟩
      | cons raw rest =>
        simp only [injectLines]
        rcases ht : injectTarget idToTree raw with - | ⟨enc, child⟩
        · simpa using ih visited indent rest h
        · simp only
          by_cases hv : visited.contains enc = true
          · rw [if_pos hv]
            simpa using ih visited indent rest h
          · rw [if_neg hv]
            have hmem : enc ∉ visited := by
              intro hm
              exact hv (List.elem_eq_true_of_mem hm)
            have h1 := ih (enc :: visited) (wsPfx (indent ++ raw) ++ "  ")
              (splitLines child) (List.nodup_cons.mpr ⟨hmem, h⟩)
            obtain ⟨h1nd, pre1, hpre1⟩ := h1
            have h2 := ih (injectLines idToTree fuel (enc :: visited)
              (wsPfx (indent ++ raw) ++ "  ") (splitLines child)).2
              indent rest h1nd
            obtain ⟨h2nd, pre2, hpre2⟩ := h2
            refine ⟨h2nd, pre2 ++ pre1 ++ [enc], ?_⟩
            simp only
            rw [hpre2, hpre1]
            simp

/-- Witness for C5: an iframe line `[0-5] Iframe` with the map
`{0-5 ↦ "[9] inner"}` gets the subtree spliced beneath it, two spaces
deeper, and the key is recorded as visited once. -/
theorem injectSubtrees_spec_witness :
    injectLines [((0, 5), "[9] inner")] 3 [] "" ["[0-5] Iframe"] =
      (["[0-5] Iframe", "  [9] inner"], [(0, 5)]) := by
  have h := injectSubtrees_spec.1 [((0, 5), "[9] inner")] 2 [] ""
    "[0-5] Iframe" [] (0, 5) "[9] inner" (by rfl) (by rfl)
  rw [h]
  rfl

/-! ## Theorems: frame-chain resolution (C6) -/

theorem splitAtIframeStep_none {steps : List String}
    (h : ∀ stp ∈ steps, iframeStepTest stp = false) :
    splitAtIframeStep steps = none := by
  induction steps with
  | nil => rfl
  | cons stp rest ih =>
    have hstp := h stp (List.mem_cons_self _ _)
    have hrest := ih (fun s hs => h s (List.mem_cons_of_mem _ hs))
    simp [splitAtIframeStep, hstp, hrest]

/-- C6: the resolver splits `/html/body/div/iframe[2]/html/body/span` on a
page where that prefix reaches an iframe into a frame chain of length 1
plus the remaining path `/html/body/span`; and whenever the remaining path
does not resolve in the current context and its step list is exhausted
without any `iframe[k]`-shaped step, the resolver throws the
does-not-resolve error naming the original XPath. -/
theorem resolveFrameChain_spec :
    (resolveFrameChain pgScenario "/html/body/div/iframe[2]/html/body/span" =
      Except.ok ([1], "/html/body/span")) ∧
    (∀ (pg : PageOracle) (absPath path : String) (fuel : Nat)
        (ctx : Option Nat) (chain : List Nat),
        pg.resolvesXPath ctx path = false →
        stepsOf path ≠ [] →
        (∀ stp ∈ stepsOf path, iframeStepTest stp = false) →
        resolveFrameChainGo pg absPath (fuel + 1) ctx chain path =
          Except.error ("XPath “" ++ absPath ++ "” does not resolve in page")) := by
  constructor
  · rfl
  · intro pg absPath path fuel ctx chain hres hne hsteps
    have hsplit := splitAtIframeStep_none hsteps
    have hempty : (stepsOf path).isEmpty = false := by
      cases hs : stepsOf path with
      | nil => exact absurd hs hne
      | cons a l => rfl
    simp [resolveFrameChainGo, hres, hsplit, hempty]

/-- Witness for C6's error clause: `/nope` resolves nowhere on the scenario
page and contains no iframe step, so the resolver reports the
does-not-resolve error for the original XPath. -/
theorem resolveFrameChain_spec_witness :
    resolveFrameChainGo pgScenario "/nope" 3 none [] "/nope" =
      Except.error "XPath “/nope” does not resolve in page" :=
  resolveFrameChain_spec.2 pgScenario "/nope" "/nope" 2 none []
    (by rfl) (by decide) (by decide)

/-! ## Theorems: combined XPath map of the stitcher (C1) -/

theorem mapGet_mapSet {α β : Type} [DecidableEq α] (l : List (α × β))
    (k k' : α) (v : β) :
    mapGet (mapSet l k v) k' = if k = k' then some v else mapGet l k' := by
  induction l with
  | nil => by_cases h : k = k' <;> simp [mapSet, mapGet, h]
  | cons kv rest ih =>
    obtain ⟨a, b⟩ := kv
    by_cases ha : a = k
    · subst ha
      by_cases h : a = k' <;> simp [mapSet, mapGet, h]
    · by_cases h : a = k' <;> by_cases h2 : k = k' <;>
        simp_all [mapSet, mapGet]

theorem mapGet_applyWrites (ws : List (EncodedId × String))
    (acc : List (EncodedId × String)) (e : EncodedId) :
    mapGet (applyWrites ws acc) e =
      match mapGet ws.reverse e with
      | some v => some v
      | none => mapGet acc e := by
  induction ws generalizing acc with
  | nil => simp [applyWrites, mapGet]
  | cons w rest ih =>
    show mapGet (applyWrites rest (mapSet acc w.1 w.2)) e = _
    rw [ih (mapSet acc w.1 w.2), List.reverse_cons, mapGet_append]
    cases hr : mapGet rest.reverse e
    · by_cases hw : w.1 = e <;> simp [mapGet_mapSet, mapGet, hw]
    · simp

theorem mapGet_map_value {α β γ : Type} [DecidableEq α] (g : β → γ)
    (l : List (α × β)) (e : α) :
    mapGet (l.map (fun p => (p.1, g p.2))) e = (mapGet l e).map g := by
  induction l with
  | nil => simp [mapGet]
  | cons kv rest ih =>
    obtain ⟨a, b⟩ := kv
    by_cases h : a = e <;> simp [mapGet, h, ih]

theorem mapGet_isSome_of_mem {α β : Type} [DecidableEq α]
    {l : List (α × β)} {e : α} {b : β} (h : (e, b) ∈ l) :
    ∃ v, mapGet l e = some v := by
  induction l with
  | nil => simp at h
  | cons kv rest ih =>
    obtain ⟨a, b'⟩ := kv
    by_cases ha : a = e
    · exact ⟨b', by simp [mapGet, ha]⟩
    · rcases List.mem_cons.mp h with h1 | h1
      · exact absurd (congrArg Prod.fst h1).symm ha
      · obtain ⟨v, hv⟩ := ih h1
        exact ⟨v, by simp [mapGet, ha, hv]⟩

theorem mapGet_none_of_no_key {α β : Type} [DecidableEq α]
    {l : List (α × β)} {e : α} (h : ∀ p ∈ l, ¬ p.1 = e) :
    mapGet l e = none := by
  induction l with
  | nil => rfl
  | cons kv rest ih =>
    obtain ⟨a, b⟩ := kv
    have ha : ¬ a = e := h (a, b) (List.mem_cons_self _ _)
    simp [mapGet, ha, ih (fun p hp => h p (List.mem_cons_of_mem _ hp))]

theorem mergeWrites_append (a b : List Snap) :
    mergeWrites (a ++ b) = mergeWrites a ++ mergeWrites b := by
  induction a with
  | nil => rfl
  | cons snap rest ih => simp [mergeWrites, ih]

theorem mem_mergeWrites {snaps : List Snap} {p : EncodedId × String}
    (h : p ∈ mergeWrites snaps) :
    ∃ s ∈ snaps, ∃ q ∈ s.2, p = (q.1, joinFramePath s.1 q.2) := by
  induction snaps with
  | nil => simp [mergeWrites] at h
  | cons snap rest ih =>
    rcases List.mem_append.mp h with h1 | h1
    · obtain ⟨q, hq, hpq⟩ := List.mem_map.mp h1
      exact ⟨snap, List.mem_cons_self _ _, q, hq, hpq.symm⟩
    · obtain ⟨s, hs, q, hq, hpq⟩ := ih h1
      exact ⟨s, List.mem_cons_of_mem _ hs, q, hq, hpq⟩

theorem mergeWrites_mem {snaps : List Snap} {s : Snap} {q : EncodedId × String}
    (hs : s ∈ snaps) (hq : q ∈ s.2) :
    (q.1, joinFramePath s.1 q.2) ∈ mergeWrites snaps := by
  induction snaps with
  | nil => simp at hs
  | cons snap rest ih =>
    rcases List.mem_cons.mp hs with h1 | h1
    · subst h1
      exact List.mem_append.mpr (Or.inl (List.mem_map.mpr ⟨q, hq, rfl⟩))
    · exact List.mem_append.mpr (Or.inr (ih h1))

theorem applyWrites_append (a b : List (EncodedId × String))
    (acc : List (EncodedId × String)) :
    applyWrites (a ++ b) acc = applyWrites b (applyWrites a acc) := by
  simp [applyWrites, List.foldl_append]

theorem mergeXpathMaps_eq_applyWrites (snaps : List Snap) :
    mergeXpathMaps snaps = applyWrites (mergeWrites snaps) [] := by
  suffices h : ∀ acc, snaps.foldl
      (fun acc snap => snap.2.foldl
        (fun acc2 p => mapSet acc2 p.1 (joinFramePath snap.1 p.2)) acc) acc =
      applyWrites (mergeWrites snaps) acc from h []
  induction snaps with
  | nil => intro acc; simp [mergeWrites, applyWrites]
  | cons snap rest ih =>
    intro acc
    have hinner : snap.2.foldl
        (fun acc2 p => mapSet acc2 p.1 (joinFramePath snap.1 p.2)) acc =
        applyWrites (snap.2.map
          (fun p => (p.1, joinFramePath snap.1 p.2))) acc := by
      rw [applyWrites, List.foldl_map]
    show rest.foldl _ (snap.2.foldl _ acc) = _
    rw [ih, hinner]
    simp only [mergeWrites, applyWrites_append]

/-- C1 counterexample: on a page with an iframe nested inside another
iframe (depth 2), the combined XPath map entry for an element of the inner
frame is the inner frame's parent-relative XPath joined with the local
XPath — it lacks the outer iframe's prefix, so it differs from the full
owning-iframe chain the claim requires and is not an absolute XPath from
the main document's root. -/
theorem combinedXpath_nested_counterexample :
    mapGet (combinedXpathMapOf cexPage) (2, 7) =
        some "/html[1]/body[1]/iframe[1]/html[1]/body[1]/span[1]" ∧
    chainPrefixedXpath
        ["/html[1]/body[1]/iframe[1]", "/html[1]/body[1]/iframe[1]"]
        "/html[1]/body[1]/span[1]" =
      "/html[1]/body[1]/iframe[1]/html[1]/body[1]/iframe[1]/html[1]/body[1]/span[1]" ∧
    mapGet (combinedXpathMapOf cexPage) (2, 7) ≠
      some (chainPrefixedXpath
        ["/html[1]/body[1]/iframe[1]", "/html[1]/body[1]/iframe[1]"]
        "/html[1]/body[1]/span[1]") := by
  refine ⟨by rfl, by rfl, by decide⟩

/-- C1 amended: every Encoded Element Identifier appearing in any frame's
local XPath map receives an entry in the combined map; and when the
identifier's last (only, for record maps) binding lives in one snapshot
with no later snapshot binding it, the merged entry equals that frame's
*immediate parent-relative* root XPath (`getFrameRootXpath`) joined with
the frame-local XPath — not the full owning-iframe chain, so the combined
XPath is absolute from the main document's root only for frames whose
parent is the main document (counterexample: depth 2). -/
theorem combinedXpathMap_spec (snaps : List Snap) (enc : EncodedId) :
    ((∃ s ∈ snaps, ∃ lp, (enc, lp) ∈ s.2) →
      ∃ v, mapGet (mergeXpathMaps snaps) enc = some v) ∧
    (∀ (pre post : List Snap) (fx : String)
        (xm : List (EncodedId × String)) (lp : String),
        snaps = pre ++ (fx, xm) :: post →
        mapGet xm.reverse enc = some lp →
        (∀ s ∈ post, ∀ p ∈ s.2, ¬ p.1 = enc) →
        mapGet (mergeXpathMaps snaps) enc = some (joinFramePath fx lp)) := by
  constructor
  · rintro ⟨s, hs, lp, hlp⟩
    rw [mergeXpathMaps_eq_applyWrites, mapGet_applyWrites]
    have hmem : (enc, joinFramePath s.1 lp) ∈ (mergeWrites snaps).reverse := by
      rw [List.mem_reverse]
      exact mergeWrites_mem hs hlp
    obtain ⟨v, hv⟩ := mapGet_isSome_of_mem hmem
    exact ⟨v, by rw [hv]⟩
  · intro pre post fx xm lp hsplit hlast hpost
    rw [mergeXpathMaps_eq_applyWrites, mapGet_applyWrites, hsplit]
    have hW : mergeWrites (pre ++ (fx, xm) :: post) =
        mergeWrites pre ++
          (xm.map (fun p => (p.1, joinFramePath fx p.2)) ++
            mergeWrites post) := by
      rw [mergeWrites_append]
      rfl
    rw [hW, List.reverse_append, List.reverse_append, mapGet_append,
      mapGet_append]
    have hC : mapGet (mergeWrites post).reverse enc = none := by
      apply mapGet_none_of_no_key
      intro p hp
      rw [List.mem_reverse] at hp
      obtain ⟨s, hs, q, hq, hpq⟩ := mem_mergeWrites hp
      rw [hpq]
      exact hpost s hs q hq
    have hB : mapGet
        (xm.map (fun p => (p.1, joinFramePath fx p.2))).reverse enc =
        some (joinFramePath fx lp) := by
      rw [← List.map_reverse, mapGet_map_value, hlast]
      rfl
    rw [hC, hB]

/-- Witness for the amended C1 theorem at the counterexample page's
snapshot list: the inner frame's element gets exactly the immediate
parent-relative prefix. -/
theorem combinedXpathMap_spec_witness :
    mapGet (mergeXpathMaps
      [("/", []), ("/html[1]/body[1]/iframe[1]", []),
       ("/html[1]/body[1]/iframe[1]",
         [((2, 7), "/html[1]/body[1]/span[1]")])]) (2, 7) =
      some (joinFramePath "/html[1]/body[1]/iframe[1]"
        "/html[1]/body[1]/span[1]") :=
  (combinedXpathMap_spec
      [("/", []), ("/html[1]/body[1]/iframe[1]", []),
       ("/html[1]/body[1]/iframe[1]",
         [((2, 7), "/html[1]/body[1]/span[1]")])] (2, 7)).2
    [("/", []), ("/html[1]/body[1]/iframe[1]", [])] []
    "/html[1]/body[1]/iframe[1]"
    [((2, 7), "/html[1]/body[1]/span[1]")] "/html[1]/body[1]/span[1]"
    (by rfl) (by rfl) (by decide)

end Stagehand
